import Mathlib

/-!
Verification development for the pystencils kernel code-generation pipeline.

The definitions below are a shallow embedding of the Python sources:
  - pystencils/cpu/vectorization.py  (the SIMD vectorization pass)
  - gpucuda/kernelcreation.py and pystencils/gpucuda/kernelcreation.py
    (ghost-layer / iteration-domain derivation in create_cuda_kernel)
  - backends/cbackend.py  (the C backend printer: CBackend and the two
    sympy printers CustomSympyPrinter / VectorizedCustomSympyPrinter)

Helper modules of this repository that are imported by those files but whose
sources are not available here (field.py, data_types.py, transformations.py,
integer_functions.py, the instruction-set tables) are modelled from the
specification; each such definition carries a doc comment starting with
"Modelled from the spec:".
-/

set_option autoImplicit false

/-! ## Scalar data types (data_types.py BasicType, reduced to what the pass reads) -/

/-- Modelled from the spec: element data types of fields.  The vectorization
pass only reads whether a type is a floating type and its item size in bytes. -/
inductive ScalarDType
  | float32
  | float64
  | int32
  | int64
  | boolType
  deriving DecidableEq, Repr

/-- Modelled from the spec: BasicType.is_float. -/
def ScalarDType.is_float : ScalarDType → Bool
  | .float32 => true
  | .float64 => true
  | _ => false

/-- Modelled from the spec: numpy_dtype.itemsize in bytes. -/
def ScalarDType.itemsize : ScalarDType → Nat
  | .float32 => 4
  | .float64 => 8
  | .int32 => 4
  | .int64 => 8
  | .boolType => 1

/-- A field as seen by the vectorization pass: its name and element type
(field.py Field, reduced to the attributes the pass reads). -/
structure FieldDescr where
  name : String
  dtype : ScalarDType
  deriving DecidableEq, Repr

/-! ## Symbols and linear index expressions

Resolved field accesses are sympy `Indexed` objects whose index is a linear
combination of loop-counter symbols (with stride coefficients) plus a
constant offset.  We embed such indices in collected normal form:
a constant plus one term per symbol, each with a coefficient that is either
a literal integer or a (shifted) stride symbol.  Occurrence of a symbol in
the sympy sense (`sym in expr.atoms(sp.Symbol)`) corresponds to its
coefficient being structurally nonzero, and the auto-simplified difference
`index - counter` corresponds to decrementing the counter's coefficient. -/

/-- A sympy symbol appearing in an index expression: either a loop counter
(LoopOverCoordinate.get_loop_counter_symbol(i)) or a free symbol. -/
inductive VSym
  | ctr (i : Nat)
  | free (name : String)
  deriving DecidableEq, Repr

/-- A coefficient of a symbol inside an index expression: a literal integer,
or a stride symbol shifted by an integer (the shift arises when the loop
counter is subtracted from a term whose coefficient is a stride symbol). -/
inductive CoeffExpr
  | cInt (n : Int)
  | cSymShift (s : String) (k : Int)
  deriving DecidableEq, Repr

/-- Structural zero test: only the literal integer 0 is the zero expression. -/
def CoeffExpr.isZero : CoeffExpr → Bool
  | .cInt 0 => true
  | _ => false

/-- Subtract one from a coefficient (the effect on a symbol's coefficient of
subtracting that symbol once from the whole expression). -/
def CoeffExpr.subOne : CoeffExpr → CoeffExpr
  | .cInt n => .cInt (n - 1)
  | .cSymShift s k => .cSymShift s (k - 1)

/-- A linear index expression: constant plus coefficient-weighted symbols. -/
structure LinIndex where
  const : Int
  terms : List (VSym × CoeffExpr)
  deriving DecidableEq, Repr

/-- The coefficient of a symbol (0 when the symbol has no term). -/
def LinIndex.coeff (idx : LinIndex) (s : VSym) : CoeffExpr :=
  match idx.terms.find? (fun p => p.1 == s) with
  | some p => p.2
  | none => .cInt 0

/-- Whether a symbol occurs in the expression, in the sense of
`s in index.atoms(sp.Symbol)`: its collected coefficient is nonzero. -/
def LinIndex.occursSym (idx : LinIndex) (s : VSym) : Bool :=
  !(idx.coeff s).isZero

/-- The auto-simplified difference `index - s` for a symbol `s`:
the symbol's coefficient is decremented by one. -/
def LinIndex.subCounter (idx : LinIndex) (s : VSym) : LinIndex :=
  if (idx.terms.find? (fun p => p.1 == s)).isSome then
    { idx with terms := idx.terms.map (fun p => if p.1 == s then (p.1, p.2.subOne) else p) }
  else
    { idx with terms := (s, CoeffExpr.cInt (-1)) :: idx.terms }

/-- Substituting 0 for every loop-counter symbol of the given coordinates
(the zero_loop_counters dictionary): their terms vanish. -/
def LinIndex.subsZeroCtrs (idx : LinIndex) (coords : List Nat) : LinIndex :=
  { const := idx.const,
    terms := idx.terms.filter (fun p => match p.1 with
      | VSym.ctr i => !(coords.contains i)
      | VSym.free _ => true) }

/-- Structural comparison with 0 (`expr == 0` on the sympy expression):
the constant is 0 and every remaining term has a zero coefficient. -/
def LinIndex.isZeroB (idx : LinIndex) : Bool :=
  decide (idx.const = 0) && idx.terms.all (fun p => p.2.isZero)

/-! ## The kernel AST as read by the vectorization pass -/

/-- An indexed array access inside the innermost loop body (a sympy `Indexed`
whose base is a typed pointer symbol).  `field` is the field the access
belongs to when the Indexed object carries one (hasattr(indexed, 'field')).
`vecInfo` is `none` for a plain scalar access; after vectorization it carries
the vector_memory_access data (base type, width, aligned, nontemporal). -/
structure AccessNode where
  base : String
  elemType : ScalarDType
  index : LinIndex
  field : Option String
  vecInfo : Option (ScalarDType × Nat × Bool × Bool) := none
  deriving DecidableEq, Repr

/-- A LoopOverCoordinate node (astnodes.py), reduced to the data the
vectorization pass reads and writes: the coordinate it iterates, integer
start/stop/step, and the indexed accesses occurring in its body. -/
structure LoopNode where
  coordinate : Nat
  start : Int
  stop : Int
  step : Int
  accesses : List AccessNode
  deriving DecidableEq, Repr

/-- Modelled from the spec: the instruction-set descriptor returned by
get_vector_instruction_set (simd_instruction_sets.py, not under src): a
record keyed by abstract operation names; the vectorization pass itself only
reads its vector width. -/
structure VecInstrSet where
  width : Nat
  deriving DecidableEq, Repr

/-- The nontemporal argument of vectorize: None, a boolean, or a container
of field names. -/
inductive NontempSpec
  | noSpec
  | boolSpec (b : Bool)
  | fieldNames (names : List String)
  deriving DecidableEq, Repr

/-- A KernelFunction node as read by the vectorization pass: the fields it
accesses (fields_accessed), its innermost loops with their bodies' indexed
accesses, the coordinates of all loops in the nest (for zero_loop_counters),
the innermost stride symbol name (target of replace_inner_stride_with_one),
and the instruction_set member attached by vectorize. -/
structure KernelAst where
  fields : List FieldDescr
  loops : List LoopNode
  allCoords : List Nat
  innerStrideSym : String
  instructionSet : Option VecInstrSet := none
  deriving DecidableEq, Repr

/-! ## Integer helpers (integer_functions.py, not under src) -/

/-- Modelled from the spec: integer_functions.modulo_floor, the largest
multiple of the divisor not exceeding the dividend (Python floor division). -/
def modulo_floor (a d : Int) : Int :=
  (a.fdiv d) * d

/-- Modelled from the spec: integer_functions.modulo_ceil, the smallest
multiple of the divisor not below the dividend. -/
def modulo_ceil (a d : Int) : Int :=
  -(((-a).fdiv d) * d)

/-- Modelled from the spec: transformations.cut_loop (not under src) splits a
loop at the cutting point into a loop over the range before the point
followed by one over the range after it, dropping empty pieces; this is the
peeling split into a width-aligned main portion and a scalar remainder. -/
def cut_loop (l : LoopNode) (cp : Int) : List LoopNode :=
  (if l.start < cp then [{ l with stop := cp }] else []) ++
  (if cp < l.stop then [{ l with start := cp }] else [])

/-! ## The vectorization pass (pystencils/cpu/vectorization.py) -/

/-- Access classification of vectorize_inner_loops_and_adapt_load_stores
(lines 105 to 126): for every indexed access, when the loop counter occurs
in the index it must no longer occur in the auto-simplified difference
index - counter (loop_counter_is_offset); the access is then replaced by a
vector_memory_access carrying (vector type, aligned flag, nontemporal flag).
Returns none when some access fails the test (successful = False). -/
def classify_accesses (coords : List Nat) (w : Nat) (assumeAligned : Bool)
    (ntFields : List String) (c : VSym) : List AccessNode → Option (List AccessNode)
  | [] => some []
  | a :: rest =>
    if a.index.occursSym c then
      if (a.index.subCounter c).occursSym c then
        none
      else
        let alignedAccess := ((a.index.subCounter c).subsZeroCtrs coords).isZeroB
        let nt := match a.field with
          | some f => ntFields.contains f
          | none => false
        let a' := { a with vecInfo := some (a.elemType, w, alignedAccess && assumeAligned, nt) }
        (classify_accesses coords w assumeAligned ntFields c rest).map (a' :: ·)
    else
      (classify_accesses coords w assumeAligned ntFields c rest).map (a :: ·)

/-- The per-innermost-loop body of vectorize_inner_loops_and_adapt_load_stores
(lines 89 to 132): when aligned accesses and sufficient line padding are
assumed the loop stop is extended to the next multiple of the vector width
(no tail); otherwise the loop is cut at the largest multiple of the width.
Classification then either rewrites the accesses and sets the step to the
vector width, or leaves the loop untouched and emits one warning (the
returned counter). -/
def vectorize_inner_loop (coords : List Nat) (w : Nat) (assumeAligned : Bool)
    (ntFields : List String) (assumeSufficientLinePadding : Bool)
    (loop : LoopNode) : List LoopNode × Nat :=
  let c := VSym.ctr loop.coordinate
  if assumeAligned && assumeSufficientLinePadding then
    let loopRange := loop.stop - loop.start
    let l1 := { loop with stop := loop.start + modulo_ceil loopRange w }
    match classify_accesses coords w assumeAligned ntFields c l1.accesses with
    | none => ([l1], 1)
    | some accs => ([{ l1 with step := (w : Int), accesses := accs }], 0)
  else
    let loopRange := loop.stop - loop.start
    let cp := modulo_floor loopRange w + loop.start
    match cut_loop loop cp with
    | [] => ([], 0)
    | main :: rest =>
      match classify_accesses coords w assumeAligned ntFields c main.accesses with
      | none => (main :: rest, 1)
      | some accs => ({ main with step := (w : Int), accesses := accs } :: rest, 0)

/-- Replace the designated inner-stride coefficient symbol by one in a
coefficient expression. -/
def CoeffExpr.replaceSymByOne (sym : String) : CoeffExpr → CoeffExpr
  | .cInt n => .cInt n
  | .cSymShift s k => if s = sym then .cInt (1 + k) else .cSymShift s k

/-- Modelled from the spec: transformations.replace_inner_stride_with_one
(not under src): rewrites the kernel in place so that the innermost stride
symbol becomes the literal one in every access index. -/
def replace_inner_stride_with_one (k : KernelAst) : KernelAst :=
  { k with loops := k.loops.map (fun l =>
      { l with accesses := l.accesses.map (fun a =>
          { a with index := { a.index with
              terms := a.index.terms.map (fun p =>
                (p.1, p.2.replaceSymByOne k.innerStrideSym)) } }) }) }

/-- Normalisation of the nontemporal argument (vectorize lines 58 to 61):
None and False give the empty set, True gives all accessed fields. -/
def resolveNontemporal (nt : NontempSpec) (allFields : List FieldDescr) : List String :=
  match nt with
  | .noSpec => []
  | .boolSpec false => []
  | .boolSpec true => allFields.map (·.name)
  | .fieldNames ns => ns

/-- The set (duplicate-free list) of floating-point element types among the
accessed fields (vectorize line 66). -/
def fieldFloatDtypes (fs : List FieldDescr) : List ScalarDType :=
  ((fs.map (·.dtype)).filter (·.is_float)).dedup

/-- The error raised by vectorize on mixed floating-point field types. -/
inductive VecError
  | notImplemented
  deriving DecidableEq, Repr

/-- The outcome of a vectorize call: the raised error if any, the kernel
state after the call (the tree is mutated in place, so it reflects every
rewrite performed before a raise), and the number of warnings emitted. -/
structure VectorizeResult where
  err : Option VecError
  kernel : KernelAst
  warnings : Nat
  deriving DecidableEq, Repr

/-- The vectorization pass vectorize (pystencils/cpu/vectorization.py lines
29 to 79).  The instruction-set argument is the descriptor resolved by
get_vector_instruction_set (whose table is not under src); passing none
models instruction_set=None.  A None instruction set returns immediately.
Otherwise the optional inner-stride replacement runs, then the pass raises
NotImplementedError unless exactly one floating-point field type is present,
and finally every innermost loop is split and vectorized and the instruction
set is attached to the kernel. -/
def vectorize (kernelAst : KernelAst) (instructionSet : Option VecInstrSet)
    (assumeAligned : Bool) (nontemporal : NontempSpec)
    (assumeInnerStrideOne : Bool) (assumeSufficientLinePadding : Bool) :
    VectorizeResult :=
  match instructionSet with
  | none => ⟨none, kernelAst, 0⟩
  | some iset =>
    let ntFields := resolveNontemporal nontemporal kernelAst.fields
    let k1 := if assumeInnerStrideOne then replace_inner_stride_with_one kernelAst else kernelAst
    if (fieldFloatDtypes k1.fields).length ≠ 1 then
      ⟨some .notImplemented, k1, 0⟩
    else
      let w := iset.width
      let processed := k1.loops.map
        (vectorize_inner_loop k1.allCoords w assumeAligned ntFields assumeSufficientLinePadding)
      ⟨none,
       { k1 with loops := (processed.map Prod.fst).flatten, instructionSet := some iset },
       (processed.map Prod.snd).sum⟩

/-! ## Ghost-layer and iteration-domain derivation
(create_cuda_kernel, gpucuda/kernelcreation.py lines 30 to 42 and
pystencils/gpucuda/kernelcreation.py lines 37 to 51).
A field access is represented by its tuple of relative spatial offsets. -/

/-- Modelled from the spec: Field.Access.required_ghost_layers (field.py not
under src): the minimum number of ghost layers required to make this access
safe, the maximum absolute offset component. -/
def required_ghost_layers (offsets : List Int) : Nat :=
  (offsets.map Int.natAbs).foldr max 0

/-- The single required ghost-layer count of create_cuda_kernel:
max([fa.required_ghost_layers for fa in field_accesses]).  Python's max
requires a nonempty access set; on the empty list this evaluates to 0. -/
def max_required_ghost_layers (field_accesses : List (List Int)) : Nat :=
  (field_accesses.map required_ghost_layers).foldr max 0

/-- The inferred ghost layers when neither an iteration slice nor a
ghost-layer count is supplied:
ghost_layers = [(required_ghost_layers, required_ghost_layers)] * len(common_shape). -/
def ghost_layers_from_accesses (field_accesses : List (List Int)) (dim : Nat) :
    List (Nat × Nat) :=
  List.replicate dim (max_required_ghost_layers field_accesses,
                      max_required_ghost_layers field_accesses)

/-- The iteration slice synthesized from a list of ghost-layer pairs
(pystencils/gpucuda/kernelcreation.py lines 49 to 51):
slice(gl[i][0], -gl[i][1] if gl[i][1] > 0 else None) per dimension, encoded
as (lower bound, optional negative upper bound). -/
def iteration_slice_from_ghost_layers (gl : List (Nat × Nat)) :
    List (Int × Option Int) :=
  gl.map (fun p => ((p.1 : Int), if 0 < p.2 then some (-(p.2 : Int)) else none))

/-- The claim's reading of the inference (stated for comparison with the
code): per dimension, the maximum over all field accesses of the absolute
relative offset in that dimension. -/
def claimed_ghost_layers_per_dim (field_accesses : List (List Int)) (d : Nat) : Nat :=
  (field_accesses.map (fun off => (((off.get? d).getD 0).natAbs))).foldr max 0

/-- Pointwise comparison of two access sets: same shapes, and every offset of
the second dominates the corresponding offset of the first in magnitude. -/
def offsetsLeAbs : List Int → List Int → Bool
  | [], [] => true
  | a :: as_, b :: bs => decide (a.natAbs ≤ b.natAbs) && offsetsLeAbs as_ bs
  | _, _ => false

/-- Pointwise magnitude comparison lifted to access lists. -/
def accessesLeAbs : List (List Int) → List (List Int) → Bool
  | [], [] => true
  | a :: as_, b :: bs => offsetsLeAbs a b && accessesLeAbs as_ bs
  | _, _ => false

/-! ## Types for the cast-insertion pass (data_types.py, reduced) -/

/-- Modelled from the spec: the base scalar types ordered by numeric
promotion rank. -/
inductive BaseScalar
  | boolB
  | int64B
  | float32B
  | float64B
  deriving DecidableEq, Repr

/-- Promotion rank used to join base types. -/
def BaseScalar.rank : BaseScalar → Nat
  | .boolB => 0
  | .int64B => 1
  | .float32B => 2
  | .float64B => 3

/-- Modelled from the spec: numeric promotion of two base types, the one of
higher rank. -/
def BaseScalar.join (a b : BaseScalar) : BaseScalar :=
  if a.rank ≤ b.rank then b else a

/-- A type as used by insert_vector_casts: a scalar base type, or a
VectorType wrapping a base type with a SIMD width. -/
inductive ValType
  | scalar (b : BaseScalar)
  | vec (b : BaseScalar) (w : Nat)
  deriving DecidableEq, Repr

/-- Whether the type is a VectorType (type(t) is VectorType). -/
def ValType.isVec : ValType → Bool
  | .vec _ _ => true
  | .scalar _ => false

/-- The base scalar type of a type. -/
def ValType.base : ValType → BaseScalar
  | .scalar b => b
  | .vec b _ => b

/-- The width attribute of a vector type (0 for a scalar, never read there). -/
def ValType.getWidth : ValType → Nat
  | .vec _ w => w
  | .scalar _ => 0

/-- Modelled from the spec: data_types.collate_types (not under src): the
common type of a list of types, vector as soon as one input is vector (with
that vector's width), over the numeric join of the base types. -/
def collate_types (ts : List ValType) : ValType :=
  let b := (ts.map ValType.base).foldl BaseScalar.join BaseScalar.boolB
  match ts.find? ValType.isVec with
  | some (.vec _ w) => .vec b w
  | _ => .scalar b

/-- A typed expression as seen by insert_vector_casts around a Piecewise:
an already-visited atom carrying its type, a cast_func wrapper, the sympy
BooleanTrue singleton, or the Python literal True (the latter can never
arise from a sympified Piecewise; it is kept to mirror the guard
`a is not True` of the source). -/
inductive TypedExpr
  | atom (name : String) (ty : ValType)
  | castF (e : TypedExpr) (ty : ValType)
  | sympyTrue
  | pyTrue
  deriving DecidableEq, Repr

/-- Modelled from the spec: data_types.get_type_of_expression (not under
src), on the expression forms appearing here: an atom carries its type, a
cast_func has its target type, boolean constants are scalar booleans. -/
def get_type_of_expression : TypedExpr → ValType
  | .atom _ t => t
  | .castF _ t => t
  | .sympyTrue => .scalar .boolB
  | .pyTrue => .scalar .boolB

/-- The result/condition target types of the Piecewise branch of
insert_vector_casts (pystencils/cpu/vectorization.py lines 160 to 168):
the result type of the whole Piecewise (the collated branch-result types),
the collated condition type, then the mutual vector promotions. -/
def piecewise_target_types (branches : List (TypedExpr × TypedExpr)) :
    ValType × ValType :=
  let types_of_results := branches.map (fun b => get_type_of_expression b.1)
  let types_of_conditions := branches.map (fun b => get_type_of_expression b.2)
  let result_target0 := collate_types types_of_results
  let condition_target0 := collate_types types_of_conditions
  let result_target :=
    if condition_target0.isVec && !result_target0.isVec then
      ValType.vec result_target0.base condition_target0.getWidth
    else result_target0
  let condition_target :=
    if !condition_target0.isVec && result_target.isVec then
      ValType.vec condition_target0.base result_target.getWidth
    else condition_target0
  (result_target, condition_target)

/-- The Piecewise branch of insert_vector_casts (lines 157 to 177): each
branch value is cast to the result target type when its type differs, each
condition is cast to the condition target type when its type differs and the
condition is not the Python literal True. -/
def insert_vector_casts_piecewise (branches : List (TypedExpr × TypedExpr)) :
    List (TypedExpr × TypedExpr) :=
  let tt := piecewise_target_types branches
  let casted_results := branches.map (fun b =>
    if get_type_of_expression b.1 ≠ tt.1 then TypedExpr.castF b.1 tt.1 else b.1)
  let casted_conditions := branches.map (fun b =>
    if get_type_of_expression b.2 ≠ tt.2 ∧ b.2 ≠ TypedExpr.pyTrue then
      TypedExpr.castF b.2 tt.2
    else b.2)
  casted_results.zip casted_conditions

/-! ## The backend printer (backends/cbackend.py) -/

/-- The instruction-set table consulted by the vectorized printer
(self.instruction_set): format templates keyed by abstract operation names,
modelled as one function per key used by the printed fragments below. -/
structure InstrTemplates where
  mulT : String → String → String
  divT : String → String → String
  sqrtT : String → String
  makeVecT : String → String
  blendvT : String → String → String → String
  storeUT : String → String → String
  storeAT : String → String → String
  streamT : String → String → String
  relT : String → String → String → String

/-- A concrete instruction-set table in the style of the AVX entry, used for
evaluating the printers on concrete inputs. -/
def sampleInstr : InstrTemplates where
  mulT := fun a b => "_mm256_mul_pd(" ++ a ++ ", " ++ b ++ ")"
  divT := fun a b => "_mm256_div_pd(" ++ a ++ ", " ++ b ++ ")"
  sqrtT := fun a => "_mm256_sqrt_pd(" ++ a ++ ")"
  makeVecT := fun a => "_mm256_set_pd(" ++ a ++ ")"
  blendvT := fun a b c => "_mm256_blendv_pd(" ++ a ++ ", " ++ b ++ ", " ++ c ++ ")"
  storeUT := fun a b => "_mm256_storeu_pd(" ++ a ++ ", " ++ b ++ ")"
  storeAT := fun a b => "_mm256_store_pd(" ++ a ++ ", " ++ b ++ ")"
  streamT := fun a b => "_mm256_stream_pd(" ++ a ++ ", " ++ b ++ ")"
  relT := fun op a b => "_mm256_cmp_pd(" ++ a ++ ", " ++ b ++ ", " ++ op ++ ")"

/-! ### Piecewise printing (C5) -/

/-- A Piecewise branch condition as the printers see it: the sympy
BooleanTrue singleton (whose args tuple is empty), a relational (whose args
are its two printed sides), or a cast_func wrapper as produced by
insert_vector_casts (whose args start with the wrapped condition). -/
inductive PieceCond
  | condTrue
  | condRel (op lhs rhs : String)
  | condCast (inner : PieceCond)
  deriving DecidableEq, Repr

/-- The result of reading `.args[0]` on a condition object, reduced to what
the printer compares it with: the BooleanTrue singleton or anything else.
BooleanTrue itself has an empty args tuple, so reading args[0] on it fails
(none models the raised IndexError). -/
inductive CondObj
  | objTrue
  | objOther
  deriving DecidableEq, Repr

/-- Reading cond.args[0] and identity-comparing it with sympify(True):
a relational's first arg is its left-hand expression (never the BooleanTrue
singleton), a cast's first arg is the wrapped condition. -/
def condArgs0 : PieceCond → Option CondObj
  | .condTrue => none
  | .condRel _ _ _ => some .objOther
  | .condCast inner => some (if inner = PieceCond.condTrue then CondObj.objTrue else CondObj.objOther)

/-- Scalar printing of a condition (the sympy expression printer on the
condition subtree, opaque except for its shape). -/
def printCondScalar : PieceCond → String
  | .condTrue => "true"
  | .condRel op lhs rhs => lhs ++ " " ++ op ++ " " ++ rhs
  | .condCast inner => printCondScalar inner

/-- Vectorized printing of a condition: a cast_func with vector target type
prints through the makeVec template, a relational through the instruction
set's comparison template. -/
def printCondVector (iset : InstrTemplates) : PieceCond → String
  | .condTrue => "true"
  | .condRel op lhs rhs => iset.relT op lhs rhs
  | .condCast inner => iset.makeVecT (printCondVector iset inner)

/-- One C ternary layer as emitted by the host printer. -/
def ternaryStr (c v rest : String) : String :=
  "((" ++ c ++ ") ? (" ++ v ++ "): (" ++ rest ++ "))"

/-- Modelled from the spec: CustomSympyPrinter._print_Piecewise delegates to
the host library's C code printer (cbackend.py lines 237 to 240), whose
contract is: the last condition must be the literal True, otherwise a
ValueError is raised; on success the branches are folded from the last
(default) branch backward into nested one-line ternaries. -/
def printPiecewiseScalar (branches : List (String × PieceCond)) :
    Except String String :=
  match branches.getLast? with
  | none => .error "empty Piecewise"
  | some lastBranch =>
    if lastBranch.2 = PieceCond.condTrue then
      .ok ((branches.dropLast.reverse).foldl
        (fun acc br => ternaryStr (printCondScalar br.2) br.1 acc) lastBranch.1)
    else
      .error "All Piecewise expressions must contain an (expr, True) statement"

/-- VectorizedCustomSympyPrinter._print_Piecewise (cbackend.py lines 439 to
457) on a vector-typed Piecewise (after the scalar fallback declined):
it reads expr.args[-1].cond.args[0] and raises unless that object is
sympify(True); reading args[0] of a bare BooleanTrue raises an IndexError.
On success the branches are folded from the last branch backward through the
blendv template. -/
def printPiecewiseVector (iset : InstrTemplates)
    (branches : List (String × PieceCond)) : Except String String :=
  match branches.getLast? with
  | none => .error "empty Piecewise"
  | some lastBranch =>
    match condArgs0 lastBranch.2 with
    | none => .error "IndexError: tuple index out of range"
    | some o =>
      if o = CondObj.objTrue then
        .ok ((branches.dropLast.reverse).foldl
          (fun acc br => iset.blendvT acc br.1 (printCondVector iset br.2)) lastBranch.1)
      else
        .error "All Piecewise expressions must contain an (expr, True) statement"

/-- The nested-ternary normal form the scalar fold produces: branches folded
from the last (default) value backward. -/
def nestedTernary : List (String × PieceCond) → String → String
  | [], d => d
  | br :: rest, d => ternaryStr (printCondScalar br.2) br.1 (nestedTernary rest d)

/-- The nested-blend normal form the vectorized fold produces. -/
def nestedBlend (iset : InstrTemplates) : List (String × PieceCond) → String → String
  | [], d => d
  | br :: rest, d => iset.blendvT (nestedBlend iset rest d) br.1 (printCondVector iset br.2)

/-! ### Power printing (C6) -/

/-- The exponent of a sympy Pow as the printers test it: an integer number,
the number 0.5, a plain symbol, or some other non-integer number. -/
inductive PowExponent
  | intE (n : Int)
  | half
  | symE (name : String)
  | otherE (repr : String)
  deriving DecidableEq, Repr

/-- Rendering of the exponent in the host printer's pow fallback. -/
def PowExponent.render : PowExponent → String
  | .intE n => toString n
  | .half => "0.5"
  | .symE s => s
  | .otherE r => r

/-- The host library's default power printing (the super() call of
CustomSympyPrinter._print_Pow), modelled from its documented contract. -/
def scalarPowFallback (base : String) (e : PowExponent) : String :=
  "pow(" ++ base ++ ", " ++ e.render ++ ")"

/-- The host printer's rendering of a Mul with the given factors:
the factor strings joined by the multiplication sign. -/
def joinStar : List String → String
  | [] => ""
  | [x] => x
  | x :: xs => x ++ "*" ++ joinStar xs

/-- The vectorized printer's rendering of a Mul chain (the _print_Mul loop):
the first factor, then one mul template application per further factor. -/
def vecMulJoin (iset : InstrTemplates) : List String → String
  | [] => ""
  | x :: xs => xs.foldl (fun acc item => iset.mulT acc item) x

/-- CustomSympyPrinter._print_Pow (cbackend.py lines 219 to 226): integer
exponents in (0, 8) unroll to a parenthesized product of copies of the base,
integer exponents in (-8, 0) to one over such a product, anything else falls
back to the host printer. -/
def printPowScalar (base : String) (e : PowExponent) : String :=
  match e with
  | .intE n =>
    if 0 < n ∧ n < 8 then
      "(" ++ joinStar (List.replicate n.toNat base) ++ ")"
    else if -8 < n ∧ n < 0 then
      "1 / (" ++ joinStar (List.replicate (-n).toNat base) ++ ")"
    else
      scalarPowFallback base e
  | _ => scalarPowFallback base e

/-- VectorizedCustomSympyPrinter._print_Pow (cbackend.py lines 357 to 374) on
a vector-typed Pow (after the scalar fallback declined): small positive
integer exponents unroll to a mul-template chain, exponent -1 to a makeVec(1.0)
divided by the base, exponent 0.5 to the sqrt template, small negative
integer exponents to one over the chain, and anything else raises ValueError. -/
def printPowVector (iset : InstrTemplates) (base : String) (e : PowExponent) :
    Except String String :=
  match e with
  | .intE n =>
    if 0 < n ∧ n < 8 then
      .ok ("(" ++ vecMulJoin iset (List.replicate n.toNat base) ++ ")")
    else if n = -1 then
      .ok (iset.divT (iset.makeVecT "1.0") base)
    else if -8 < n ∧ n < 0 then
      .ok (iset.divT (iset.makeVecT "1.0") (vecMulJoin iset (List.replicate (-n).toNat base)))
    else
      .error ("Generic exponential not supported: " ++ base)
  | .half => .ok (iset.sqrtT base)
  | .symE s => .error ("Generic exponential not supported: " ++ s)
  | .otherE r => .error ("Generic exponential not supported: " ++ r)

/-- The right-unrolled product the scalar printer is claimed to emit:
the base repeated the given number of times, joined by the multiplication
sign (defined for positive counts). -/
def repProdScalar (b : String) : Nat → String
  | 0 => ""
  | 1 => b
  | (k + 2) => b ++ "*" ++ repProdScalar b (k + 1)

/-- The left-associated mul-template chain the vectorized printer is claimed
to emit for a product of copies of the base. -/
def repProdVector (iset : InstrTemplates) (b : String) : Nat → String
  | 0 => ""
  | 1 => b
  | (k + 2) => iset.mulT (repProdVector iset b (k + 1)) b

/-! ### Assignment printing (C8) -/

/-- The left-hand side of a SympyAssignment as the printer distinguishes it: a
typed symbol, or a vector_memory_access (a cast_func subclass with args
(target, type, aligned, nontemporal)) denoting a memory location. -/
inductive AssignLhs
  | typedSym (name : String) (ty : ValType)
  | vecMemAccess (target : String) (ty : ValType) (aligned nontemporal : Bool)
  deriving DecidableEq, Repr

/-- The type of the left-hand side (get_type_of_expression(node.lhs)). -/
def AssignLhs.lhsType : AssignLhs → ValType
  | .typedSym _ t => t
  | .vecMemAccess _ t _ _ => t

/-- Whether the left-hand side is a cast_func instance
(vector_memory_access subclasses cast_func). -/
def AssignLhs.isCastFunc : AssignLhs → Bool
  | .typedSym _ _ => false
  | .vecMemAccess _ _ _ _ => true

/-- The printed form of the left-hand side expression. -/
def AssignLhs.printed : AssignLhs → String
  | .typedSym n _ => n
  | .vecMemAccess t _ _ _ => t

/-- Printing of a base scalar type. -/
def BaseScalar.printC : BaseScalar → String
  | .boolB => "bool"
  | .int64B => "int64_t"
  | .float32B => "float"
  | .float64B => "double"

/-- Printing of a type in a declaration. -/
def ValType.printC : ValType → String
  | .scalar b => b.printC
  | .vec b w => "vec" ++ toString w ++ "_" ++ b.printC

/-- A SympyAssignment node as the printer sees it: the left-hand side, the
already-printed right-hand side, and the declaration/const flags. -/
structure AssignNode where
  lhs : AssignLhs
  rhs : String
  is_declaration : Bool
  is_const : Bool
  deriving Repr

/-- CBackend._print_SympyAssignment (cbackend.py lines 160 to 176):
declarations are printed with their (possibly const) type; a non-declaration
whose left-hand side is a vector-typed cast_func emits a store intrinsic
chosen by the aligned/nontemporal flags; everything else is a plain
assignment statement. -/
def print_SympyAssignment (iset : InstrTemplates) (node : AssignNode) : String :=
  if node.is_declaration then
    let dataType :=
      if node.is_const then "const " ++ node.lhs.lhsType.printC ++ " "
      else node.lhs.lhsType.printC ++ " "
    dataType ++ node.lhs.printed ++ " = " ++ node.rhs ++ ";"
  else
    if node.lhs.lhsType.isVec && node.lhs.isCastFunc then
      match node.lhs with
      | .vecMemAccess target _ aligned nontemporal =>
        let instr :=
          if aligned then (if nontemporal then iset.streamT else iset.storeAT)
          else iset.storeUT
        instr ("&" ++ target) node.rhs ++ ";"
      | .typedSym n _ => n ++ " = " ++ node.rhs ++ ";"
    else
      node.lhs.printed ++ " = " ++ node.rhs ++ ";"

/-! ### The printer entry point (C9) -/

/-- CBackend.__call__ (cbackend.py lines 117 to 122): the process-wide
selector VectorType.instruction_set is the explicit state threaded through;
the call saves it, installs the printer's own instruction set, runs the
recursive print (a function of the ambient selector that may raise), and
restores the saved value after the result string is produced.  When the
print raises, the exception propagates before the restore line runs. -/
def cbackend_call (printNode : Option InstrTemplates → Except String String)
    (vectorInstructionSet : Option InstrTemplates)
    (instructionSetState : Option InstrTemplates) :
    Except String String × Option InstrTemplates :=
  let prev_is := instructionSetState
  let current := vectorInstructionSet
  match printNode current with
  | .ok s => (.ok s, prev_is)
  | .error e => (.error e, current)

/-! ## Concrete instances used to evaluate the development -/

/-- A concrete print body used to evaluate cbackend_call. -/
def constPrintNode : Option InstrTemplates → Except String String :=
  fun _ => Except.ok "kernel body"

/-- A concrete consecutive access: index is the inner loop counter plus one. -/
def consecAccess : AccessNode :=
  { base := "fd", elemType := .float64,
    index := { const := 1, terms := [(VSym.ctr 0, CoeffExpr.cInt 1)] },
    field := some "f", vecInfo := none }

/-- The vector memory access that replaces consecAccess at width 4 (the
access is not aligned because of its offset, and not nontemporal). -/
def consecAccessVec : AccessNode :=
  { consecAccess with vecInfo := some (.float64, 4, false, false) }

/-- A concrete innermost loop over the range 0 to 10 containing the
consecutive access. -/
def consecLoop : LoopNode :=
  { coordinate := 0, start := 0, stop := 10, step := 1,
    accesses := [consecAccess] }

/-- A concrete access whose index contains the loop counter with coefficient
two, so the counter is not a simple additive offset. -/
def stridedAccess : AccessNode :=
  { base := "fd", elemType := .float64,
    index := { const := 0, terms := [(VSym.ctr 0, CoeffExpr.cInt 2)] },
    field := some "f", vecInfo := none }

/-- A concrete innermost loop containing the strided access. -/
def stridedLoop : LoopNode :=
  { coordinate := 0, start := 0, stop := 10, step := 1,
    accesses := [stridedAccess] }

/-- A concrete kernel holding the strided loop over one float64 field. -/
def stridedKernel : KernelAst :=
  { fields := [⟨"f", ScalarDType.float64⟩], loops := [stridedLoop],
    allCoords := [0], innerStrideSym := "s" }

/-- Concrete Piecewise branches: two scalar float64 values with one
vector-typed condition and the default True condition. -/
def pwBranches : List (TypedExpr × TypedExpr) :=
  [(TypedExpr.atom "v1" (ValType.scalar BaseScalar.float64B),
    TypedExpr.atom "c" (ValType.vec BaseScalar.boolB 4)),
   (TypedExpr.atom "v2" (ValType.scalar BaseScalar.float64B),
    TypedExpr.sympyTrue)]

/-! ## Helper lemmas -/

theorem foldrMax_le (l : List Nat) (r : Nat) (h : ∀ x ∈ l, x ≤ r) :
    l.foldr max 0 ≤ r := by
  induction l with
  | nil => simp
  | cons a as ih =>
    simp only [List.foldr_cons]
    exact max_le (h a (by simp)) (ih (fun x hx => h x (List.mem_cons_of_mem a hx)))

theorem le_foldrMax (l : List Nat) (x : Nat) (h : x ∈ l) :
    x ≤ l.foldr max 0 := by
  induction l with
  | nil => cases h
  | cons a as ih =>
    simp only [List.foldr_cons]
    rcases List.mem_cons.mp h with rfl | hx
    · exact le_max_left _ _
    · exact le_trans (ih hx) (le_max_right _ _)

theorem required_ghost_layers_mono {a b : List Int}
    (h : offsetsLeAbs a b = true) :
    required_ghost_layers a ≤ required_ghost_layers b := by
  induction a generalizing b with
  | nil => exact Nat.zero_le _
  | cons x xs ih =>
    cases b with
    | nil => simp [offsetsLeAbs] at h
    | cons y ys =>
      simp only [offsetsLeAbs, Bool.and_eq_true, decide_eq_true_eq] at h
      simp only [required_ghost_layers, List.map_cons, List.foldr_cons]
      exact max_le_max h.1 (ih h.2)

theorem max_required_ghost_layers_mono {a b : List (List Int)}
    (h : accessesLeAbs a b = true) :
    max_required_ghost_layers a ≤ max_required_ghost_layers b := by
  induction a generalizing b with
  | nil => exact Nat.zero_le _
  | cons x xs ih =>
    cases b with
    | nil => simp [accessesLeAbs] at h
    | cons y ys =>
      simp only [accessesLeAbs, Bool.and_eq_true] at h
      simp only [max_required_ghost_layers, List.map_cons, List.foldr_cons]
      exact max_le_max (required_ghost_layers_mono h.1) (ih h.2)

/-! ## Claim theorems -/

/-- C1, counterexample to the claim as stated: for the single access with
offsets (2, 0), the claim says dimension 1 skips 0 ghost layers (the maximal
absolute offset in that dimension), but create_cuda_kernel applies the global
maximum 2 to every dimension. -/
theorem C1_ghost_layers_counterexample :
    (ghost_layers_from_accesses [[(2 : Int), 0]] 2).get? 1 = some (2, 2)
    ∧ claimed_ghost_layers_per_dim [[(2 : Int), 0]] 1 = 0
    ∧ (ghost_layers_from_accesses [[(2 : Int), 0]] 2).get? 1 ≠
        some (claimed_ghost_layers_per_dim [[(2 : Int), 0]] 1,
              claimed_ghost_layers_per_dim [[(2 : Int), 0]] 1) := by
  decide

/-- C1 (amended): with no explicit slice or ghost-layer count, the inferred
ghost-layer count is one single value applied to both boundaries of every
dimension, namely the maximum over all field accesses of the maximal
absolute offset component; when all offsets lie within [-r, r] and magnitude
r is attained by some component, exactly r layers are excluded on each side
of every dimension; and pointwise increasing offset magnitudes never
decreases the inferred count. -/
theorem C1_ghost_layers_amended (field_accesses field_accesses' : List (List Int))
    (dim d r : Nat)
    (hne : field_accesses ≠ [])
    (hd : d < dim)
    (hmono : accessesLeAbs field_accesses field_accesses' = true)
    (hbound : ∀ off ∈ field_accesses, ∀ o ∈ off, o.natAbs ≤ r)
    (hattain : ∃ off ∈ field_accesses, ∃ o ∈ off, o.natAbs = r) :
    (ghost_layers_from_accesses field_accesses dim).get? d =
        some (max_required_ghost_layers field_accesses,
              max_required_ghost_layers field_accesses)
    ∧ max_required_ghost_layers field_accesses = r
    ∧ max_required_ghost_layers field_accesses ≤ max_required_ghost_layers field_accesses'
    ∧ iteration_slice_from_ghost_layers (ghost_layers_from_accesses field_accesses dim) =
        List.replicate dim ((r : Int), if 0 < r then some (-(r : Int)) else none) := by
  have hmax : max_required_ghost_layers field_accesses = r := by
    apply le_antisymm
    · apply foldrMax_le
      intro x hx
      rcases List.mem_map.mp hx with ⟨off, hoff, rfl⟩
      apply foldrMax_le
      intro y hy
      rcases List.mem_map.mp hy with ⟨o, ho, rfl⟩
      exact hbound off hoff o ho
    · rcases hattain with ⟨off, hoff, o, ho, rfl⟩
      calc o.natAbs ≤ required_ghost_layers off :=
            le_foldrMax _ _ (List.mem_map.mpr ⟨o, ho, rfl⟩)
        _ ≤ max_required_ghost_layers field_accesses :=
            le_foldrMax _ _ (List.mem_map.mpr ⟨off, hoff, rfl⟩)
  refine ⟨?_, hmax, max_required_ghost_layers_mono hmono, ?_⟩
  · simp [ghost_layers_from_accesses, List.get?_eq_getElem?, hd]
  · simp [iteration_slice_from_ghost_layers, ghost_layers_from_accesses, hmax,
      List.map_replicate]

/-- Witness for C1 (amended) at a concrete anisotropic access set. -/
theorem C1_ghost_layers_amended_witness :
    (ghost_layers_from_accesses [[(1 : Int), 2], [0, 1]] 2).get? 1 =
        some (max_required_ghost_layers [[(1 : Int), 2], [0, 1]],
              max_required_ghost_layers [[(1 : Int), 2], [0, 1]])
    ∧ max_required_ghost_layers [[(1 : Int), 2], [0, 1]] = 2
    ∧ max_required_ghost_layers [[(1 : Int), 2], [0, 1]] ≤
        max_required_ghost_layers [[(1 : Int), 2], [0, 3]]
    ∧ iteration_slice_from_ghost_layers
        (ghost_layers_from_accesses [[(1 : Int), 2], [0, 1]] 2) =
        List.replicate 2 ((2 : Int), if 0 < (2 : Nat) then some (-(2 : Int)) else none) :=
  C1_ghost_layers_amended [[(1 : Int), 2], [0, 1]] [[(1 : Int), 2], [0, 3]] 2 1 2
    (by decide) (by decide) (by decide) (by decide) (by decide)

/-- C2, counterexample to the claim as stated: a kernel accessing a float32
and a float64 field has two floating-point field types, yet calling the pass
with instruction_set None returns without raising. -/
theorem C2_mixed_precision_counterexample :
    (fieldFloatDtypes [⟨"f", ScalarDType.float32⟩, ⟨"g", ScalarDType.float64⟩]).length = 2
    ∧ (vectorize
        { fields := [⟨"f", ScalarDType.float32⟩, ⟨"g", ScalarDType.float64⟩],
          loops := [], allCoords := [], innerStrideSym := "s" }
        none false (NontempSpec.boolSpec false) false true).err = none := by
  decide

/-- C2 (amended): when a non-None instruction set is supplied, the pass
raises NotImplementedError whenever the floating-point element types of the
accessed fields do not form a one-element set, and at that point the kernel
has undergone no rewriting except the inner-stride replacement requested via
assume_inner_stride_one; with exactly one floating type no such error is
raised, the pass completes and attaches the instruction set. -/
theorem C2_mixed_precision_amended (k k' : KernelAst) (iset : VecInstrSet)
    (a a' : Bool) (nt nt' : NontempSpec) (i i' p p' : Bool)
    (hmix : (fieldFloatDtypes k.fields).length ≠ 1)
    (hone : (fieldFloatDtypes k'.fields).length = 1) :
    vectorize k (some iset) a nt i p =
      ⟨some VecError.notImplemented,
       (if i then replace_inner_stride_with_one k else k), 0⟩
    ∧ (vectorize k' (some iset) a' nt' i' p').err = none
    ∧ (vectorize k' (some iset) a' nt' i' p').kernel.instructionSet = some iset := by
  have hf : ∀ kk : KernelAst, (replace_inner_stride_with_one kk).fields = kk.fields :=
    fun _ => rfl
  refine ⟨?_, ?_, ?_⟩
  · cases i <;> simp [vectorize, hmix, hf]
  · cases i' <;> simp [vectorize, hone, hf]
  · cases i' <;> simp [vectorize, hone, hf]

/-- Witness for C2 (amended) on concrete mixed and uniform kernels. -/
theorem C2_mixed_precision_amended_witness :
    vectorize
        { fields := [⟨"f", ScalarDType.float32⟩, ⟨"g", ScalarDType.float64⟩],
          loops := [], allCoords := [], innerStrideSym := "s" }
        (some ⟨4⟩) false (NontempSpec.boolSpec false) false true =
      ⟨some VecError.notImplemented,
       (if false then replace_inner_stride_with_one
          { fields := [⟨"f", ScalarDType.float32⟩, ⟨"g", ScalarDType.float64⟩],
            loops := [], allCoords := [], innerStrideSym := "s" }
        else
          { fields := [⟨"f", ScalarDType.float32⟩, ⟨"g", ScalarDType.float64⟩],
            loops := [], allCoords := [], innerStrideSym := "s" }), 0⟩
    ∧ (vectorize
        { fields := [⟨"h", ScalarDType.float64⟩],
          loops := [], allCoords := [], innerStrideSym := "s" }
        (some ⟨4⟩) true (NontempSpec.boolSpec true) true false).err = none
    ∧ (vectorize
        { fields := [⟨"h", ScalarDType.float64⟩],
          loops := [], allCoords := [], innerStrideSym := "s" }
        (some ⟨4⟩) true (NontempSpec.boolSpec true) true false).kernel.instructionSet =
        some ⟨4⟩ :=
  C2_mixed_precision_amended
    { fields := [⟨"f", ScalarDType.float32⟩, ⟨"g", ScalarDType.float64⟩],
      loops := [], allCoords := [], innerStrideSym := "s" }
    { fields := [⟨"h", ScalarDType.float64⟩],
      loops := [], allCoords := [], innerStrideSym := "s" }
    ⟨4⟩ false true (NontempSpec.boolSpec false) (NontempSpec.boolSpec true)
    false true true false (by decide) (by decide)

/-- C8: a non-declaration assignment whose left-hand side is a vector-typed
memory location emits the store intrinsic selected by the aligned and
nontemporal flags, stream when aligned and nontemporal, storeA when aligned
only, storeU otherwise, applied to the address of the target and the printed
right-hand side, instead of a plain assignment. -/
theorem C8_vector_store_selection (iset : InstrTemplates) (target rhs : String)
    (b : BaseScalar) (w : Nat) (aligned nontemporal : Bool) :
    print_SympyAssignment iset
      ⟨AssignLhs.vecMemAccess target (ValType.vec b w) aligned nontemporal,
       rhs, false, false⟩ =
      (if aligned && nontemporal then iset.streamT
       else if aligned && !nontemporal then iset.storeAT
       else iset.storeUT) ("&" ++ target) rhs ++ ";" := by
  cases aligned <;> cases nontemporal <;> rfl

/-- C9: the printer entry point saves the process-wide instruction-set
selector, installs its own instruction set for the traversal, and, once the
result string is produced, restores the saved value, so a successful call
leaves the selector observably unchanged while the traversal itself ran
under the printer's own instruction set. -/
theorem C9_cbackend_call_restores
    (printNode : Option InstrTemplates → Except String String)
    (own g : Option InstrTemplates)
    (h : (printNode own).isOk = true) :
    (cbackend_call printNode own g).2 = g
    ∧ (cbackend_call printNode own g).1 = printNode own := by
  cases hp : printNode own with
  | ok s => simp [cbackend_call, hp]
  | error e => rw [hp] at h; simp [Except.isOk, Except.toBool] at h

/-- Witness for C9 at a concrete printer body and instruction sets. -/
theorem C9_cbackend_call_restores_witness :
    (cbackend_call constPrintNode (some sampleInstr) none).2 = none
    ∧ (cbackend_call constPrintNode (some sampleInstr) none).1 =
        constPrintNode (some sampleInstr) :=
  C9_cbackend_call_restores constPrintNode (some sampleInstr) none rfl

/-- C10: calling the vectorization pass with instruction_set None returns
immediately: no error is raised, no warning is emitted, and the kernel,
including its fields, loops and absent instruction-set attachment, is
returned completely unchanged, whatever the other arguments are. -/
theorem C10_vectorize_none_noop (k : KernelAst) (a : Bool) (nt : NontempSpec)
    (i p : Bool) :
    vectorize k none a nt i p = ⟨none, k, 0⟩ :=
  rfl

theorem classify_accesses_none_of_bad (coords : List Nat) (w : Nat) (al : Bool)
    (ntf : List String) (c : VSym) (accs : List AccessNode)
    (hbad : ∃ a ∈ accs, a.index.occursSym c = true ∧
        (a.index.subCounter c).occursSym c = true) :
    classify_accesses coords w al ntf c accs = none := by
  induction accs with
  | nil => rcases hbad with ⟨a, ha, _⟩; cases ha
  | cons x xs ih =>
    rcases hbad with ⟨a, ha, h1, h2⟩
    rcases List.mem_cons.mp ha with rfl | hmem
    · simp [classify_accesses, h1, h2]
    · have hrest := ih ⟨a, hmem, h1, h2⟩
      by_cases hx : x.index.occursSym c = true
      · by_cases hx2 : (x.index.subCounter c).occursSym c = true
        · simp [classify_accesses, hx, hx2]
        · simp [classify_accesses, hx, hx2, hrest]
      · simp [classify_accesses, hx, hrest]

/-- C3: vectorizing an innermost loop over the integer range from start to
stop splits it at the cutting point start + w * floor((stop - start) / w):
the main loop keeps the start, stops at the cutting point, advances by w per
iteration and carries the rewritten accesses; a scalar tail loop (step still
1) over the remainder follows exactly when the trip count is not a multiple
of w; and when aligned access and sufficient line padding are both assumed
no tail loop is created and the loop's stop is instead extended to
start + w * ceil((stop - start) / w). -/
theorem C3_loop_splitting (coords : List Nat) (w : Nat) (al : Bool)
    (ntf : List String) (loop : LoopNode)
    (accsMain accsExt : List AccessNode)
    (hw : 0 < w)
    (hr : (w : Int) ≤ loop.stop - loop.start)
    (hstep : loop.step = 1)
    (hcls : classify_accesses coords w al ntf (VSym.ctr loop.coordinate)
        loop.accesses = some accsMain)
    (hclsA : classify_accesses coords w true ntf (VSym.ctr loop.coordinate)
        loop.accesses = some accsExt) :
    (vectorize_inner_loop coords w al ntf false loop =
      ({ loop with
           stop := loop.start + (w : Int) * ((loop.stop - loop.start).fdiv (w : Int)),
           step := (w : Int), accesses := accsMain } ::
        (if loop.start + (w : Int) * ((loop.stop - loop.start).fdiv (w : Int)) < loop.stop
         then [{ loop with
                   start := loop.start + (w : Int) * ((loop.stop - loop.start).fdiv (w : Int)) }]
         else []), 0))
    ∧ ((loop.start + (w : Int) * ((loop.stop - loop.start).fdiv (w : Int)) < loop.stop) ↔
        ¬ ((w : Int) ∣ (loop.stop - loop.start)))
    ∧ ({ loop with
          start := loop.start + (w : Int) * ((loop.stop - loop.start).fdiv (w : Int)) } :
        LoopNode).step = 1
    ∧ vectorize_inner_loop coords w true ntf true loop =
      ([{ loop with
            stop := loop.start + (w : Int) * (-((-(loop.stop - loop.start)).fdiv (w : Int))),
            step := (w : Int), accesses := accsExt }], 0) := by
  have hwpos : (0 : Int) < (w : Int) := by exact_mod_cast hw
  have hsum : (w : Int) * ((loop.stop - loop.start).fdiv (w : Int)) +
      (loop.stop - loop.start).fmod (w : Int) = loop.stop - loop.start :=
    Int.fdiv_add_fmod _ _
  have hfm0 : 0 ≤ (loop.stop - loop.start).fmod (w : Int) :=
    Int.fmod_nonneg' _ hwpos
  have hfmlt : (loop.stop - loop.start).fmod (w : Int) < (w : Int) :=
    Int.fmod_lt_of_pos _ hwpos
  have hdvd : ((w : Int) ∣ (loop.stop - loop.start)) ↔
      (loop.stop - loop.start).fmod (w : Int) = 0 := by
    rw [Int.fmod_eq_emod _ (le_of_lt hwpos)]
    exact Int.dvd_iff_emod_eq_zero
  have hcp2 : modulo_floor (loop.stop - loop.start) (w : Int) + loop.start =
      loop.start + (w : Int) * ((loop.stop - loop.start).fdiv (w : Int)) := by
    unfold modulo_floor; ring
  have hstartlt : loop.start <
      loop.start + (w : Int) * ((loop.stop - loop.start).fdiv (w : Int)) := by
    generalize hm : (w : Int) * ((loop.stop - loop.start).fdiv (w : Int)) = m at hsum ⊢
    omega
  have hceil : loop.start + modulo_ceil (loop.stop - loop.start) (w : Int) =
      loop.start + (w : Int) * (-((-(loop.stop - loop.start)).fdiv (w : Int))) := by
    unfold modulo_ceil; ring
  refine ⟨?_, ?_, ?_, ?_⟩
  · show vectorize_inner_loop coords w al ntf false loop = _
    unfold vectorize_inner_loop
    rw [Bool.and_false]
    simp only [Bool.false_eq_true, if_false]
    rw [show cut_loop loop (modulo_floor (loop.stop - loop.start) (w : Int) + loop.start) =
        { loop with stop := modulo_floor (loop.stop - loop.start) (w : Int) + loop.start } ::
          (if modulo_floor (loop.stop - loop.start) (w : Int) + loop.start < loop.stop
           then [{ loop with
                start := modulo_floor (loop.stop - loop.start) (w : Int) + loop.start }]
           else []) from by
      unfold cut_loop
      rw [if_pos (hcp2 ▸ hstartlt)]
      simp]
    simp only [hcp2]
    show (match classify_accesses coords w al ntf (VSym.ctr loop.coordinate)
        loop.accesses with
      | none => _
      | some accs => _) = _
    rw [hcls]
  · rw [hdvd]
    constructor
    · intro h hz
      rw [hz, add_zero] at hsum
      omega
    · intro hnz
      generalize hm : (w : Int) * ((loop.stop - loop.start).fdiv (w : Int)) = m at hsum ⊢
      omega
  · exact hstep
  · show vectorize_inner_loop coords w true ntf true loop = _
    unfold vectorize_inner_loop
    rw [Bool.and_self]
    simp only [if_true]
    show (match classify_accesses coords w true ntf (VSym.ctr loop.coordinate)
        loop.accesses with
      | none => _
      | some accs => _) = _
    rw [hclsA]
    show ([{ loop with
        stop := loop.start + modulo_ceil (loop.stop - loop.start) (w : Int),
        step := (w : Int), accesses := accsExt }], 0) = _
    rw [hceil]

/-- Witness for C3 on a concrete loop of range 10 split at width 4. -/
theorem C3_loop_splitting_witness :
    (vectorize_inner_loop [0] 4 false [] false consecLoop =
      ({ consecLoop with stop := 8, step := 4, accesses := [consecAccessVec] } ::
        [{ consecLoop with start := 8 }], 0))
    ∧ (((8 : Int) < 10) ↔ ¬ ((4 : Int) ∣ 10))
    ∧ ({ consecLoop with start := 8 } : LoopNode).step = 1
    ∧ vectorize_inner_loop [0] 4 true [] true consecLoop =
      ([{ consecLoop with stop := 12, step := 4, accesses := [consecAccessVec] }], 0) :=
  C3_loop_splitting [0] 4 false [] consecLoop [consecAccessVec] [consecAccessVec]
    (by decide) (by decide) rfl (by decide) (by decide)

/-- C4: when some indexed access of an innermost loop has the loop counter in
its index but not as a simple additive offset (the counter still occurs in
the difference of index and counter), the loop is left un-vectorized, its
step stays 1 and no access is rewritten to a vector memory access, one
warning-level diagnostic is emitted, and the pass itself completes without
raising on a kernel containing such a loop. -/
theorem C4_nonaffine_scalar_fallback (coords : List Nat) (w : Nat)
    (al : Bool) (ntf : List String) (p : Bool) (loop : LoopNode)
    (k : KernelAst) (iset : VecInstrSet) (nt : NontempSpec)
    (hw : 0 < w)
    (hr : loop.start < loop.stop)
    (hstep : loop.step = 1)
    (hscalar : ∀ acc ∈ loop.accesses, acc.vecInfo = none)
    (hbad : ∃ acc ∈ loop.accesses,
        acc.index.occursSym (VSym.ctr loop.coordinate) = true ∧
        ((acc.index.subCounter (VSym.ctr loop.coordinate)).occursSym
          (VSym.ctr loop.coordinate)) = true)
    (hfloat : (fieldFloatDtypes k.fields).length = 1) :
    (vectorize_inner_loop coords w al ntf p loop).2 = 1
    ∧ (∀ l ∈ (vectorize_inner_loop coords w al ntf p loop).1,
        l.step = 1 ∧ ∀ acc ∈ l.accesses, acc.vecInfo = none)
    ∧ (vectorize k (some iset) al nt false p).err = none := by
  have hnone : ∀ b : Bool, classify_accesses coords w b ntf (VSym.ctr loop.coordinate)
      loop.accesses = none :=
    fun b => classify_accesses_none_of_bad coords w b ntf _ loop.accesses hbad
  have hmain : (vectorize_inner_loop coords w al ntf p loop).2 = 1
      ∧ ∀ l ∈ (vectorize_inner_loop coords w al ntf p loop).1,
          l.step = 1 ∧ ∀ acc ∈ l.accesses, acc.vecInfo = none := by
    unfold vectorize_inner_loop
    by_cases hb : (al && p) = true
    · rw [hb]
      simp only [if_true, hnone al]
      refine ⟨by simp, ?_⟩
      intro l hl
      rcases List.mem_singleton.mp hl with rfl
      exact ⟨hstep, hscalar⟩
    · rw [Bool.not_eq_true] at hb
      rw [hb]
      simp only [Bool.false_eq_true, if_false]
      have hq0 : 0 ≤ (loop.stop - loop.start).fdiv (w : Int) :=
        Int.fdiv_nonneg (by omega) (by exact_mod_cast Nat.zero_le w)
      have hcpge : loop.start ≤ modulo_floor (loop.stop - loop.start) (w : Int) + loop.start := by
        unfold modulo_floor
        have : 0 ≤ (loop.stop - loop.start).fdiv (w : Int) * (w : Int) :=
          mul_nonneg hq0 (by exact_mod_cast Nat.zero_le w)
        omega
      by_cases hlt : loop.start < modulo_floor (loop.stop - loop.start) (w : Int) + loop.start
      · rw [show cut_loop loop (modulo_floor (loop.stop - loop.start) (w : Int) + loop.start) =
            { loop with stop := modulo_floor (loop.stop - loop.start) (w : Int) + loop.start } ::
              (if modulo_floor (loop.stop - loop.start) (w : Int) + loop.start < loop.stop
               then [{ loop with
                    start := modulo_floor (loop.stop - loop.start) (w : Int) + loop.start }]
               else []) from by
          unfold cut_loop
          rw [if_pos hlt]
          simp]
        simp only [hnone al]
        refine ⟨by simp, ?_⟩
        intro l hl
        rcases List.mem_cons.mp hl with rfl | hl2
        · exact ⟨hstep, hscalar⟩
        · by_cases htail : modulo_floor (loop.stop - loop.start) (w : Int) + loop.start < loop.stop
          · rw [if_pos htail] at hl2
            rcases List.mem_singleton.mp hl2 with rfl
            exact ⟨hstep, hscalar⟩
          · rw [if_neg htail] at hl2
            cases hl2
      · have hcpeq : modulo_floor (loop.stop - loop.start) (w : Int) + loop.start = loop.start := by
          omega
        rw [show cut_loop loop (modulo_floor (loop.stop - loop.start) (w : Int) + loop.start) =
            [{ loop with start := modulo_floor (loop.stop - loop.start) (w : Int) + loop.start }]
          from by
          unfold cut_loop
          rw [if_neg hlt, if_pos (by omega)]
          simp]
        simp only [hnone al]
        refine ⟨by simp, ?_⟩
        intro l hl
        rcases List.mem_singleton.mp hl with rfl
        exact ⟨hstep, hscalar⟩
  refine ⟨hmain.1, hmain.2, ?_⟩
  simp [vectorize, hfloat]

/-- Witness for C4 on a concrete loop whose access has the counter with
coefficient two in its index. -/
theorem C4_nonaffine_scalar_fallback_witness :
    (vectorize_inner_loop [0] 4 false [] false stridedLoop).2 = 1
    ∧ (∀ l ∈ (vectorize_inner_loop [0] 4 false [] false stridedLoop).1,
        l.step = 1 ∧ ∀ acc ∈ l.accesses, acc.vecInfo = none)
    ∧ (vectorize stridedKernel (some ⟨4⟩) false (NontempSpec.boolSpec false)
        false false).err = none :=
  C4_nonaffine_scalar_fallback [0] 4 false [] false stridedLoop stridedKernel ⟨4⟩
    (NontempSpec.boolSpec false) (by decide) (by decide) rfl (by decide) (by decide)
    (by decide)

theorem foldl_reverse_ternary (bs : List (String × PieceCond)) (d : String) :
    (bs.reverse).foldl (fun acc br => ternaryStr (printCondScalar br.2) br.1 acc) d =
      nestedTernary bs d := by
  rw [List.foldl_reverse]
  induction bs with
  | nil => rfl
  | cons b rest ih => simp only [List.foldr_cons, nestedTernary, ih]

theorem foldl_reverse_blend (iset : InstrTemplates) (bs : List (String × PieceCond))
    (d : String) :
    (bs.reverse).foldl (fun acc br => iset.blendvT acc br.1 (printCondVector iset br.2)) d =
      nestedBlend iset bs d := by
  rw [List.foldl_reverse]
  induction bs with
  | nil => rfl
  | cons b rest ih => simp only [List.foldr_cons, nestedBlend, ih]

/-- C5, counterexample to the claim as stated: on a vector-typed Piecewise
whose last condition is literally the constant True, the vectorized printer
does not emit the blend fold; reading args[0] of the bare BooleanTrue fails,
so printing errors out even though the last condition is True. -/
theorem C5_piecewise_totality_counterexample :
    ([("x", PieceCond.condRel "<" "a" "b"), ("y", PieceCond.condTrue)].getLast? =
        some ("y", PieceCond.condTrue))
    ∧ (printPiecewiseVector sampleInstr
        [("x", PieceCond.condRel "<" "a" "b"), ("y", PieceCond.condTrue)]).isOk = false := by
  constructor
  · rfl
  · rfl

/-- C5 (amended): the scalar printer rejects a piecewise whose last condition
is not literally True and otherwise folds the branches backward into nested
ternaries; the vectorized printer inspects the first argument of the last
condition object (the broadcast-cast form produced by cast insertion): when
the last condition is a cast of True it folds backward through nested blend
intrinsics, when that first argument is not True it rejects with an error,
and a bare True last condition also makes it fail (with an IndexError)
rather than emit. -/
theorem C5_piecewise_totality_amended (iset : InstrTemplates)
    (bs : List (String × PieceCond)) (lastV : String) (badC : PieceCond)
    (hbad1 : badC ≠ PieceCond.condTrue)
    (hbad2 : condArgs0 badC ≠ some CondObj.objTrue) :
    printPiecewiseScalar (bs ++ [(lastV, PieceCond.condTrue)]) =
        Except.ok (nestedTernary bs lastV)
    ∧ (printPiecewiseScalar (bs ++ [(lastV, badC)])).isOk = false
    ∧ printPiecewiseVector iset (bs ++ [(lastV, PieceCond.condCast PieceCond.condTrue)]) =
        Except.ok (nestedBlend iset bs lastV)
    ∧ (printPiecewiseVector iset (bs ++ [(lastV, badC)])).isOk = false
    ∧ (printPiecewiseVector iset (bs ++ [(lastV, PieceCond.condTrue)])).isOk = false := by
  refine ⟨?_, ?_, ?_, ?_, ?_⟩
  · unfold printPiecewiseScalar
    rw [List.getLast?_concat, List.dropLast_concat]
    exact congrArg Except.ok (foldl_reverse_ternary bs lastV)
  · unfold printPiecewiseScalar
    rw [List.getLast?_concat]
    split
    · rfl
    · next lb heq =>
      injection heq with heq2
      subst heq2
      rw [if_neg (by simpa using hbad1)]
      rfl
  · unfold printPiecewiseVector
    rw [List.getLast?_concat, List.dropLast_concat]
    exact congrArg Except.ok (foldl_reverse_blend iset bs lastV)
  · unfold printPiecewiseVector
    rw [List.getLast?_concat]
    split
    · rfl
    · next lb heq =>
      injection heq with heq2
      subst heq2
      split
      · rfl
      · next o heq3 =>
        split
        · next ho =>
          exfalso
          apply hbad2
          rw [ho] at heq3
          exact heq3
        · rfl
  · unfold printPiecewiseVector
    rw [List.getLast?_concat]
    rfl

/-- Witness for C5 (amended) on concrete branch lists. -/
theorem C5_piecewise_totality_amended_witness :
    printPiecewiseScalar ([("x", PieceCond.condRel "<" "a" "b")] ++
        [("y", PieceCond.condTrue)]) =
      Except.ok (nestedTernary [("x", PieceCond.condRel "<" "a" "b")] "y")
    ∧ (printPiecewiseScalar ([("x", PieceCond.condRel "<" "a" "b")] ++
        [("y", PieceCond.condRel "<" "c" "d")])).isOk = false
    ∧ printPiecewiseVector sampleInstr ([("x", PieceCond.condRel "<" "a" "b")] ++
        [("y", PieceCond.condCast PieceCond.condTrue)]) =
      Except.ok (nestedBlend sampleInstr [("x", PieceCond.condRel "<" "a" "b")] "y")
    ∧ (printPiecewiseVector sampleInstr ([("x", PieceCond.condRel "<" "a" "b")] ++
        [("y", PieceCond.condRel "<" "c" "d")])).isOk = false
    ∧ (printPiecewiseVector sampleInstr ([("x", PieceCond.condRel "<" "a" "b")] ++
        [("y", PieceCond.condTrue)])).isOk = false :=
  C5_piecewise_totality_amended sampleInstr [("x", PieceCond.condRel "<" "a" "b")]
    "y" (PieceCond.condRel "<" "c" "d") (by decide) (by decide)

theorem joinStar_replicate (b : String) (k : Nat) :
    joinStar (List.replicate (k + 1) b) = repProdScalar b (k + 1) := by
  induction k with
  | zero => rfl
  | succ m ih =>
    rw [List.replicate_succ, List.replicate_succ]
    show b ++ "*" ++ joinStar (b :: List.replicate m b) = _
    rw [← List.replicate_succ, ih]
    rfl

theorem vecMulJoin_replicate (iset : InstrTemplates) (b : String) (k : Nat) :
    vecMulJoin iset (List.replicate (k + 1) b) = repProdVector iset b (k + 1) := by
  induction k with
  | zero => rfl
  | succ m ih =>
    have h1 : List.replicate (m + 1 + 1) b = b :: (List.replicate m b ++ [b]) := by
      rw [List.replicate_succ, List.replicate_succ']
    rw [h1]
    show (List.replicate m b ++ [b]).foldl (fun acc item => iset.mulT acc item) b = _
    rw [List.foldl_append]
    have h3 : vecMulJoin iset (List.replicate (m + 1) b) =
        (List.replicate m b).foldl (fun acc item => iset.mulT acc item) b := by
      rw [List.replicate_succ]
      rfl
    show iset.mulT ((List.replicate m b).foldl (fun acc item => iset.mulT acc item) b) b = _
    rw [← h3, ih]
    rfl

/-- C6: both printers unroll an integer exponent strictly between 0 and 8
into an explicit product of that many copies of the base, and an integer
exponent strictly between -8 and 0 into one divided by the product of the
negated count of copies; the vectorized printer emits exponent 0.5 through
the instruction set's sqrt template, and fails hard on a symbolic or other
non-integer exponent. -/
theorem C6_pow_printing (iset : InstrTemplates) (base s r : String) (m n : Int)
    (hm0 : 0 < m) (hm8 : m < 8) (hn8 : -8 < n) (hn0 : n < 0) :
    printPowScalar base (.intE m) = "(" ++ repProdScalar base m.toNat ++ ")"
    ∧ printPowVector iset base (.intE m) =
        .ok ("(" ++ repProdVector iset base m.toNat ++ ")")
    ∧ printPowScalar base (.intE n) = "1 / (" ++ repProdScalar base (-n).toNat ++ ")"
    ∧ printPowVector iset base (.intE n) =
        .ok (iset.divT (iset.makeVecT "1.0") (repProdVector iset base (-n).toNat))
    ∧ printPowVector iset base .half = .ok (iset.sqrtT base)
    ∧ (printPowVector iset base (.symE s)).isOk = false
    ∧ (printPowVector iset base (.otherE r)).isOk = false := by
  obtain ⟨km, hkm⟩ : ∃ km, m.toNat = km + 1 := by
    refine ⟨m.toNat - 1, ?_⟩
    omega
  obtain ⟨kn, hkn⟩ : ∃ kn, (-n).toNat = kn + 1 := by
    refine ⟨(-n).toNat - 1, ?_⟩
    omega
  refine ⟨?_, ?_, ?_, ?_, rfl, rfl, rfl⟩
  · show (if 0 < m ∧ m < 8 then _ else _) = _
    rw [if_pos ⟨hm0, hm8⟩, hkm, joinStar_replicate]
  · show (if 0 < m ∧ m < 8 then _ else _) = _
    rw [if_pos ⟨hm0, hm8⟩, hkm, vecMulJoin_replicate]
  · show (if 0 < n ∧ n < 8 then _ else _) = _
    rw [if_neg (by omega), if_pos ⟨hn8, hn0⟩, hkn, joinStar_replicate]
  · show (if 0 < n ∧ n < 8 then _ else _) = _
    rw [if_neg (by omega)]
    by_cases hne : n = -1
    · rw [if_pos hne]
      have : (-n).toNat = 1 := by omega
      rw [this]
      rfl
    · rw [if_neg hne, if_pos ⟨hn8, hn0⟩, hkn, vecMulJoin_replicate]

/-- Witness for C6 at exponents 3 and -2. -/
theorem C6_pow_printing_witness :
    printPowScalar "b" (.intE 3) = "(" ++ repProdScalar "b" (3 : Int).toNat ++ ")"
    ∧ printPowVector sampleInstr "b" (.intE 3) =
        .ok ("(" ++ repProdVector sampleInstr "b" (3 : Int).toNat ++ ")")
    ∧ printPowScalar "b" (.intE (-2)) =
        "1 / (" ++ repProdScalar "b" (-(-2) : Int).toNat ++ ")"
    ∧ printPowVector sampleInstr "b" (.intE (-2)) =
        .ok (sampleInstr.divT (sampleInstr.makeVecT "1.0")
          (repProdVector sampleInstr "b" (-(-2) : Int).toNat))
    ∧ printPowVector sampleInstr "b" .half = .ok (sampleInstr.sqrtT "b")
    ∧ (printPowVector sampleInstr "b" (.symE "p")).isOk = false
    ∧ (printPowVector sampleInstr "b" (.otherE "0.3")).isOk = false :=
  C6_pow_printing sampleInstr "b" "p" "0.3" 3 (-2)
    (by decide) (by decide) (by decide) (by decide)

@[simp] theorem isVec_vec (b : BaseScalar) (w : Nat) :
    (ValType.vec b w).isVec = true := rfl

@[simp] theorem isVec_scalar (b : BaseScalar) :
    (ValType.scalar b).isVec = false := rfl

theorem piecewise_target_types_fst (branches : List (TypedExpr × TypedExpr)) :
    (piecewise_target_types branches).1 =
      if (collate_types (branches.map (fun b => get_type_of_expression b.2))).isVec &&
          !(collate_types (branches.map (fun b => get_type_of_expression b.1))).isVec then
        ValType.vec
          (collate_types (branches.map (fun b => get_type_of_expression b.1))).base
          (collate_types (branches.map (fun b => get_type_of_expression b.2))).getWidth
      else collate_types (branches.map (fun b => get_type_of_expression b.1)) := rfl

theorem collate_types_isVec_of_mem {ts : List ValType} {t : ValType}
    (ht : t ∈ ts) (hv : t.isVec = true) : (collate_types ts).isVec = true := by
  have hsome : (ts.find? ValType.isVec).isSome := by
    rw [List.find?_isSome]
    exact ⟨t, ht, hv⟩
  obtain ⟨u, hu⟩ := Option.isSome_iff_exists.mp hsome
  have hu2 : u.isVec = true := List.find?_some hu
  cases u with
  | scalar b => simp [ValType.isVec] at hu2
  | vec b w => simp [collate_types, hu, ValType.isVec]

theorem zip_map_map {α β γ : Type} (f : α → β) (g : α → γ) (l : List α) :
    (l.map f).zip (l.map g) = l.map (fun x => (f x, g x)) := by
  induction l with
  | nil => rfl
  | cons x xs ih => simp [ih]

theorem mem_zip_map_self {α β : Type} (f : α → β) (l : List α) (p : α × β)
    (hp : p ∈ l.zip (l.map f)) : p.2 = f p.1 := by
  induction l with
  | nil => cases hp
  | cons x xs ih =>
    rw [List.map_cons, List.zip_cons_cons] at hp
    rcases List.mem_cons.mp hp with rfl | h2
    · rfl
    · exact ih h2

/-- C7: in cast insertion around a Piecewise, the computed result target type
is vector as soon as any branch value or any condition is vector-typed; in
particular, when the collated condition type is a vector type while the
collated branch-value type is scalar, the result type is promoted to the
vector type of the condition's width over the scalar base, and every
scalar-typed branch value is wrapped in a broadcast cast to that promoted
vector type. -/
theorem C7_piecewise_vector_promotion (branches : List (TypedExpr × TypedExpr))
    (hne : branches ≠ []) :
    ((∃ b ∈ branches, (get_type_of_expression b.1).isVec = true) ∨
      (∃ b ∈ branches, (get_type_of_expression b.2).isVec = true) →
      ((piecewise_target_types branches).1).isVec = true)
    ∧ ((collate_types (branches.map (fun b => get_type_of_expression b.2))).isVec = true →
       (collate_types (branches.map (fun b => get_type_of_expression b.1))).isVec = false →
        (piecewise_target_types branches).1 =
          ValType.vec
            (collate_types (branches.map (fun b => get_type_of_expression b.1))).base
            (collate_types (branches.map (fun b => get_type_of_expression b.2))).getWidth
        ∧ ∀ pr ∈ branches.zip (insert_vector_casts_piecewise branches),
            (get_type_of_expression pr.1.1).isVec = false →
            pr.2.1 = TypedExpr.castF pr.1.1 (piecewise_target_types branches).1) := by
  constructor
  · intro h
    rcases h with ⟨b, hb, hv⟩ | ⟨b, hb, hv⟩
    · have hr0 : (collate_types (branches.map (fun b => get_type_of_expression b.1))).isVec =
          true :=
        collate_types_isVec_of_mem
          (List.mem_map.mpr ⟨b, hb, rfl⟩) hv
      simp [piecewise_target_types_fst, hr0]
    · have hc0 : (collate_types (branches.map (fun b => get_type_of_expression b.2))).isVec =
          true :=
        collate_types_isVec_of_mem
          (List.mem_map.mpr ⟨b, hb, rfl⟩) hv
      by_cases hr0 : (collate_types
          (branches.map (fun b => get_type_of_expression b.1))).isVec = true
      · simp [piecewise_target_types_fst, hr0]
      · rw [Bool.not_eq_true] at hr0
        simp [piecewise_target_types_fst, hr0, hc0]
  · intro hc0 hr0
    have htarget : (piecewise_target_types branches).1 =
        ValType.vec
          (collate_types (branches.map (fun b => get_type_of_expression b.1))).base
          (collate_types (branches.map (fun b => get_type_of_expression b.2))).getWidth := by
      simp [piecewise_target_types_fst, hc0, hr0]
    refine ⟨htarget, ?_⟩
    intro pr hpr hscal
    have hz : insert_vector_casts_piecewise branches =
        branches.map (fun b =>
          (if get_type_of_expression b.1 ≠ (piecewise_target_types branches).1 then
            TypedExpr.castF b.1 (piecewise_target_types branches).1 else b.1,
           if get_type_of_expression b.2 ≠ (piecewise_target_types branches).2 ∧
              b.2 ≠ TypedExpr.pyTrue then
            TypedExpr.castF b.2 (piecewise_target_types branches).2 else b.2)) := by
      unfold insert_vector_casts_piecewise
      rw [zip_map_map]
    rw [hz] at hpr
    have hpr2 := mem_zip_map_self _ branches pr hpr
    rw [hpr2]
    have hneq : get_type_of_expression pr.1.1 ≠ (piecewise_target_types branches).1 := by
      rw [htarget]
      intro heq
      rw [heq] at hscal
      simp [ValType.isVec] at hscal
    simp only [if_pos hneq]

/-- Witness for C7 on a Piecewise with scalar branch values and one
vector-typed condition. -/
theorem C7_piecewise_vector_promotion_witness :
    ((∃ b ∈ pwBranches, (get_type_of_expression b.1).isVec = true) ∨
      (∃ b ∈ pwBranches, (get_type_of_expression b.2).isVec = true) →
      ((piecewise_target_types pwBranches).1).isVec = true)
    ∧ ((collate_types (pwBranches.map (fun b => get_type_of_expression b.2))).isVec = true →
       (collate_types (pwBranches.map (fun b => get_type_of_expression b.1))).isVec = false →
        (piecewise_target_types pwBranches).1 =
          ValType.vec
            (collate_types (pwBranches.map (fun b => get_type_of_expression b.1))).base
            (collate_types (pwBranches.map (fun b => get_type_of_expression b.2))).getWidth
        ∧ ∀ pr ∈ pwBranches.zip (insert_vector_casts_piecewise pwBranches),
            (get_type_of_expression pr.1.1).isVec = false →
            pr.2.1 = TypedExpr.castF pr.1.1 (piecewise_target_types pwBranches).1) :=
  C7_piecewise_vector_promotion pwBranches (by decide)
